import Mathlib

/-!
Verification of the Fornjot B-rep kernel specification against its source.

The development shallowly embeds the parts of the code base that the claims
are about:

* `objects/full/edge.rs` — `HalfEdge`, `GlobalEdge`, `VerticesInNormalizedOrder`;
* `algorithms/sweep/edge.rs` — sweeping a half-edge into a face;
* `kernel/shape/vertices.rs` and `kernel/shape/cycles.rs` — the older
  shape store with its minimum-distance and edge-ownership checks;
* `algorithms/approx/sketch.rs` together with the spec's description of the
  per-call curve approximation cache.

Scalars of the geometry are embedded as exact rationals (`ℚ`); code whose
observable behaviour is a consequence of IEEE-754 rounding (the adaptive
orientation predicate) is out of scope of this embedding.

Parts of the repository that the analysed files reference but whose sources
are not available (the handle/storage layer, the vertex- and curve-sweep
helpers, the reverse operation, the partial builders, the curve cache) are
modelled from the specification; every such definition carries a doc comment
starting with `Modelled from the spec:`.
-/

/-- A 2-dimensional point/vector with exact rational coordinates. -/
structure Point2 where
  x : ℚ
  y : ℚ
deriving DecidableEq, Repr

/-- A 3-dimensional point/vector with exact rational coordinates. -/
structure Point3 where
  x : ℚ
  y : ℚ
  z : ℚ
deriving DecidableEq, Repr

instance : Add Point2 := ⟨fun a b => ⟨a.x + b.x, a.y + b.y⟩⟩
instance : Sub Point2 := ⟨fun a b => ⟨a.x - b.x, a.y - b.y⟩⟩
instance : Add Point3 := ⟨fun a b => ⟨a.x + b.x, a.y + b.y, a.z + b.z⟩⟩
instance : Sub Point3 := ⟨fun a b => ⟨a.x - b.x, a.y - b.y, a.z - b.z⟩⟩

/-- Scaling a 2-dimensional vector by a rational. -/
def Point2.smul (q : ℚ) (v : Point2) : Point2 := ⟨q * v.x, q * v.y⟩

/-- Scaling a 3-dimensional vector by a rational. -/
def Point3.smul (q : ℚ) (v : Point3) : Point3 := ⟨q * v.x, q * v.y, q * v.z⟩

/-- The sum of squared coordinates of a 3-dimensional vector: the square of
its Euclidean magnitude. -/
def Point3.magnitudeSq (v : Point3) : ℚ := v.x * v.x + v.y * v.y + v.z * v.z

@[simp] theorem point2_add_def (a b : Point2) :
    a + b = ⟨a.x + b.x, a.y + b.y⟩ := rfl

@[simp] theorem point2_sub_def (a b : Point2) :
    a - b = ⟨a.x - b.x, a.y - b.y⟩ := rfl

@[simp] theorem point3_add_def (a b : Point3) :
    a + b = ⟨a.x + b.x, a.y + b.y, a.z + b.z⟩ := rfl

@[simp] theorem point3_sub_def (a b : Point3) :
    a - b = ⟨a.x - b.x, a.y - b.y, a.z - b.z⟩ := rfl

namespace FjKernel

/-- Modelled from the spec: a `Handle<T>` gives "access to exactly one stored
instance of `T`"; "two handles are equal iff they reference the same stored
instance (identity equality)" and "handles are totally ordered (by identity)".
The embedding carries the identity as a numeric id together with the value the
handle dereferences to. The storage layer itself (`storage/handle.rs`) is not
among the analysed sources. -/
structure Handle (T : Type) where
  id : Nat
  val : T
deriving DecidableEq, Repr

/-- Handle order: by identity, as the spec prescribes for the total order used
as map/set keys and by `VerticesInNormalizedOrder`. -/
def Handle.lt {T : Type} (a b : Handle T) : Prop := a.id < b.id

instance {T : Type} (a b : Handle T) : Decidable (Handle.lt a b) :=
  inferInstanceAs (Decidable (a.id < b.id))

/-- A canonical 3D vertex position (`GlobalVertex` in `objects`): "a canonical
3D point; the single identity for a vertex". -/
structure GlobalVertex where
  position : Point3
deriving DecidableEq, Repr

/-- A path in global 3D coordinates (line or circle), the data of the
canonical embedding of a curve in 3D. -/
inductive GlobalPath where
  | line (origin : Point3) (direction : Point3)
  | circle (center : Point3) (a : Point3) (b : Point3)
deriving DecidableEq, Repr

/-- Modelled from the spec: `GlobalCurve` is "the canonical embedding of that
curve in 3D" (`objects/full/curve.rs` is not among the analysed sources). -/
structure GlobalCurve where
  path : GlobalPath
deriving DecidableEq, Repr

/-- Modelled from the spec: a surface, as produced by sweeping a curve — a
plane-like surface spanned by a u-path and a sweep direction v. The preset
planes (xy, xz) are particular values of this shape. -/
structure Surface where
  u : GlobalPath
  v : Point3
deriving DecidableEq, Repr

/-- A path in surface-local 2D coordinates (`SurfacePath`): line or circle. -/
inductive SurfacePath where
  | line (origin : Point2) (direction : Point2)
  | circle (center : Point2) (a : Point2) (b : Point2)
deriving DecidableEq, Repr

/-- A curve: "pairing of a surface-local 2D parametrization (line or circle)
with a `GlobalCurve`", constructed in the source as
`Curve::new(surface, path, global_form)`. -/
structure Curve where
  surface : Handle Surface
  path : SurfacePath
  globalForm : Handle GlobalCurve
deriving DecidableEq, Repr

/-- A surface vertex: "a vertex in a surface's 2D coordinates, carrying a
reference to its `GlobalVertex`", constructed in the source as
`SurfaceVertex::new(position, surface, global_form)`. -/
structure SurfaceVertex where
  position : Point2
  surface : Handle Surface
  globalForm : Handle GlobalVertex
deriving DecidableEq, Repr

/-- The vertices of a `GlobalEdge`, stored in normalized order
(`objects/full/edge.rs`, `VerticesInNormalizedOrder`). -/
structure VerticesInNormalizedOrder where
  pair : Handle GlobalVertex × Handle GlobalVertex
deriving DecidableEq, Repr

/-- `VerticesInNormalizedOrder::new`: sorts the two vertex handles; the
returned `Bool` indicates whether normalization changed the order.
Source: `if a < b { (Self([a, b]), false) } else { (Self([b, a]), true) }`. -/
def VerticesInNormalizedOrder.new (a b : Handle GlobalVertex) :
    VerticesInNormalizedOrder × Bool :=
  if Handle.lt a b then (⟨(a, b)⟩, false) else (⟨(b, a)⟩, true)

/-- `VerticesInNormalizedOrder::access_in_normalized_order`. -/
def VerticesInNormalizedOrder.accessInNormalizedOrder
    (v : VerticesInNormalizedOrder) : Handle GlobalVertex × Handle GlobalVertex :=
  v.pair

/-- An undirected edge in global coordinates (`GlobalEdge`). -/
structure GlobalEdge where
  curve : Handle GlobalCurve
  vertices : VerticesInNormalizedOrder
deriving DecidableEq, Repr

/-- `GlobalEdge::new`: normalizes the vertex order via
`VerticesInNormalizedOrder::new`, discarding the flag. -/
def GlobalEdge.new (curve : Handle GlobalCurve)
    (vertices : Handle GlobalVertex × Handle GlobalVertex) : GlobalEdge :=
  let (v, _) := VerticesInNormalizedOrder.new vertices.1 vertices.2
  ⟨curve, v⟩

/-- A half-edge (`HalfEdge`): a curve, two `(curve point, surface vertex)`
boundary pairs, and a reference to the global form. -/
structure HalfEdge where
  curve : Handle Curve
  boundary : (ℚ × Handle SurfaceVertex) × (ℚ × Handle SurfaceVertex)
  globalForm : Handle GlobalEdge
deriving DecidableEq, Repr

/-- `HalfEdge::boundary`: the two boundary points on the curve. -/
def HalfEdge.boundaryPoints (e : HalfEdge) : ℚ × ℚ :=
  (e.boundary.1.1, e.boundary.2.1)

/-- `HalfEdge::start_vertex`: the surface vertex the half-edge starts from. -/
def HalfEdge.startVertex (e : HalfEdge) : Handle SurfaceVertex :=
  e.boundary.1.2

/-- The surface vertex the half-edge ends at (`surface_vertices()[1]`). -/
def HalfEdge.endVertex (e : HalfEdge) : Handle SurfaceVertex :=
  e.boundary.2.2

/-- `HalfEdge::surface_vertices`: both boundary surface vertices. -/
def HalfEdge.surfaceVertices (e : HalfEdge) :
    Handle SurfaceVertex × Handle SurfaceVertex :=
  (e.boundary.1.2, e.boundary.2.2)

/-- An ordered, closed sequence of half-edges (`Cycle`). -/
structure Cycle where
  halfEdges : List (Handle HalfEdge)
deriving DecidableEq, Repr

/-- A face: an exterior cycle plus a color attribute (interior cycles are not
involved in any analysed claim and are omitted from the sweep result, which
never produces them). -/
structure Face where
  exterior : Handle Cycle
  color : Nat
deriving DecidableEq, Repr

end FjKernel

namespace FjKernel

/-- `VerticesInNormalizedOrder.new a b` returns `(a, b)` or `(b, a)`. -/
theorem verticesInNormalizedOrder_new_cases (a b : Handle GlobalVertex) :
    (VerticesInNormalizedOrder.new a b).1.pair = (a, b) ∨
      (VerticesInNormalizedOrder.new a b).1.pair = (b, a) := by
  unfold VerticesInNormalizedOrder.new
  split <;> simp

/-- C1: constructing a `GlobalEdge` from `[A, B]` and from `[B, A]` with the
same curve yields structurally equal values, so the two constructions are
recognized as the same undirected edge. The hypothesis states store
coherence: two handles with the same identity dereference to the same stored
instance. -/
theorem globalEdge_new_direction_irrelevant
    (c : Handle GlobalCurve) (A B : Handle GlobalVertex)
    (h : A.id = B.id → A = B) :
    GlobalEdge.new c (A, B) = GlobalEdge.new c (B, A) := by
  unfold GlobalEdge.new VerticesInNormalizedOrder.new Handle.lt
  rcases Nat.lt_trichotomy A.id B.id with hlt | heq | hgt
  · simp [hlt, Nat.lt_asymm hlt]
  · have hAB : A = B := h heq
    subst hAB
    simp
  · simp [hgt, Nat.lt_asymm hgt]

/-- Witness for C1 at concrete handles. -/
theorem globalEdge_new_direction_irrelevant_witness :
    GlobalEdge.new ⟨0, ⟨GlobalPath.line ⟨0, 0, 0⟩ ⟨1, 0, 0⟩⟩⟩
        (⟨1, ⟨⟨0, 0, 0⟩⟩⟩, ⟨2, ⟨⟨1, 0, 0⟩⟩⟩) =
      GlobalEdge.new ⟨0, ⟨GlobalPath.line ⟨0, 0, 0⟩ ⟨1, 0, 0⟩⟩⟩
        (⟨2, ⟨⟨1, 0, 0⟩⟩⟩, ⟨1, ⟨⟨0, 0, 0⟩⟩⟩) :=
  globalEdge_new_direction_irrelevant _ _ _ (by decide)

/-- C10: `VerticesInNormalizedOrder::new [a, b]` returns the input pair sorted
by the handles' total order — the first component is the smaller handle —
with the boolean flag true exactly when `a < b` does not hold (in particular
the flag is true when both handles are the same, with the order unchanged);
and the stored vertex pair of every constructed `GlobalEdge` is in this
normalized order. -/
theorem verticesInNormalizedOrder_new_spec (a b : Handle GlobalVertex) :
    ((VerticesInNormalizedOrder.new a b).1.pair = (a, b) ∨
        (VerticesInNormalizedOrder.new a b).1.pair = (b, a)) ∧
      (VerticesInNormalizedOrder.new a b).1.pair.1.id ≤
        (VerticesInNormalizedOrder.new a b).1.pair.2.id ∧
      ((VerticesInNormalizedOrder.new a b).2 = true ↔ ¬Handle.lt a b) ∧
      VerticesInNormalizedOrder.new a a = (⟨(a, a)⟩, true) ∧
      ∀ (c : Handle GlobalCurve)
        (vs : Handle GlobalVertex × Handle GlobalVertex),
        (GlobalEdge.new c vs).vertices.pair.1.id ≤
          (GlobalEdge.new c vs).vertices.pair.2.id := by
  refine ⟨verticesInNormalizedOrder_new_cases a b, ?_, ?_, ?_, ?_⟩
  · by_cases hab : Handle.lt a b
    · simp [VerticesInNormalizedOrder.new, hab]
      exact Nat.le_of_lt hab
    · simp [VerticesInNormalizedOrder.new, hab]
      exact Nat.le_of_not_lt hab
  · by_cases hab : Handle.lt a b <;>
      simp [VerticesInNormalizedOrder.new, hab]
  · simp [VerticesInNormalizedOrder.new, Handle.lt]
  · intro c vs
    by_cases hv : Handle.lt vs.1 vs.2
    · simp [GlobalEdge.new, VerticesInNormalizedOrder.new, hv]
      exact Nat.le_of_lt hv
    · simp [GlobalEdge.new, VerticesInNormalizedOrder.new, hv]
      exact Nat.le_of_not_lt hv

end FjKernel

namespace OldKernel

open FjKernel (Handle)

/-- A vertex of the older shape kernel (`kernel/shape/vertices.rs`): it is
defined by its 3D point, accessed via `point()`. -/
structure Vertex where
  point : Point3
deriving DecidableEq, Repr

/-- The strict comparison `(a - b).magnitude() < m` performed by
`Vertices::add`, embedded exactly over the rationals: since the Euclidean
magnitude is nonnegative, it is below `m` iff `m` is positive and the squared
magnitude is below `m * m` (see `magnitudeLt_iff_sqrt`). -/
def magnitudeLt (d : Point3) (m : ℚ) : Bool :=
  decide (0 < m ∧ d.magnitudeSq < m * m)

/-- The squared magnitude is a sum of squares, hence nonnegative. -/
theorem magnitudeSq_nonneg (d : Point3) : 0 ≤ d.magnitudeSq := by
  unfold Point3.magnitudeSq
  have hx := mul_self_nonneg d.x
  have hy := mul_self_nonneg d.y
  have hz := mul_self_nonneg d.z
  linarith

/-- Faithfulness of `magnitudeLt`: it decides exactly whether the real
Euclidean magnitude `√(dx² + dy² + dz²)` is strictly below `m`. -/
theorem magnitudeLt_iff_sqrt (d : Point3) (m : ℚ) :
    magnitudeLt d m = true ↔
      Real.sqrt ((d.magnitudeSq : ℚ) : ℝ) < ((m : ℚ) : ℝ) := by
  unfold magnitudeLt
  simp only [decide_eq_true_eq]
  constructor
  · rintro ⟨hm, hlt⟩
    have hm' : (0 : ℝ) < (m : ℝ) := by exact_mod_cast hm
    rw [show ((m : ℚ) : ℝ) = Real.sqrt (((m * m : ℚ) : ℝ)) by
      push_cast
      rw [Real.sqrt_mul_self (le_of_lt hm')]]
    apply Real.sqrt_lt_sqrt
    · exact_mod_cast magnitudeSq_nonneg d
    · exact_mod_cast hlt
  · intro h
    have hm' : (0 : ℝ) < (m : ℝ) :=
      lt_of_le_of_lt (Real.sqrt_nonneg _) h
    have hm : 0 < m := by exact_mod_cast hm'
    refine ⟨hm, ?_⟩
    have := (Real.sqrt_lt' hm').mp h
    have hmm : ((d.magnitudeSq : ℚ) : ℝ) < ((m * m : ℚ) : ℝ) := by
      push_cast
      calc ((d.magnitudeSq : ℚ) : ℝ) < (m : ℝ) ^ 2 := this
        _ = (m : ℝ) * (m : ℝ) := sq (m : ℝ)
    exact_mod_cast hmm

/-- The vertex store of a shape (`Vertices` in `kernel/shape/vertices.rs`):
the configured minimum distance and the vertices stored so far. The storage
layer (`shape/handle.rs`) is not among the analysed sources; modelled from the
spec, a handle is the identity (index) of the stored value. -/
structure VerticesStore where
  minDistance : ℚ
  vertices : List Vertex
deriving DecidableEq, Repr

/-- `Vertices::add`: checks every existing vertex for being closer than the
minimum distance — panicking (modelled as `none`) if one is — and otherwise
pushes the vertex and returns a handle to it. -/
def Vertices.add (s : VerticesStore) (v : Vertex) :
    Option (Handle Vertex × VerticesStore) :=
  if s.vertices.any (fun existing =>
      magnitudeLt (existing.point - v.point) s.minDistance) then
    none
  else
    some (⟨s.vertices.length, v⟩,
      { s with vertices := s.vertices ++ [v] })

/-- C4: adding a vertex fails (panics) iff some already-stored vertex lies at
Euclidean distance strictly less than the minimum distance from it; on
success the vertex is appended to the store and a handle to it is returned;
and in particular adding a vertex whose distance to every existing vertex is
exactly the minimum distance succeeds. -/
theorem vertices_add_min_distance_spec (s : VerticesStore) (v : Vertex) :
    (Vertices.add s v = none ↔
        ∃ existing ∈ s.vertices,
          magnitudeLt (existing.point - v.point) s.minDistance = true) ∧
      (∀ h s', Vertices.add s v = some (h, s') →
        s'.vertices = s.vertices ++ [v] ∧ s'.minDistance = s.minDistance ∧
          h.val = v ∧ h.id = s.vertices.length) ∧
      ((∀ existing ∈ s.vertices,
          (existing.point - v.point).magnitudeSq =
            s.minDistance * s.minDistance) →
        (Vertices.add s v).isSome = true) := by
  refine ⟨?_, ?_, ?_⟩
  · unfold Vertices.add
    split
    · simp only [true_iff]
      next hany => simpa using hany
    · simp only [reduceCtorEq, false_iff]
      next hany => simpa using hany
  · intro h s' hsome
    unfold Vertices.add at hsome
    split at hsome
    · exact absurd hsome (by simp)
    · obtain ⟨h1, h2⟩ := Option.some.injEq _ _ ▸ hsome
      cases hsome
      simp
  · intro hexact
    have hany : s.vertices.any (fun existing =>
        magnitudeLt (existing.point - v.point) s.minDistance) = false := by
      simp only [List.any_eq_false]
      intro existing hmem
      unfold magnitudeLt
      simp only [decide_eq_true_eq, not_and, not_lt]
      intro _
      exact le_of_eq (hexact existing hmem).symm
    unfold Vertices.add
    rw [hany]
    simp

/-- Witness for C4: adding a vertex at exactly the minimum distance from the
only stored vertex succeeds. -/
theorem vertices_add_min_distance_spec_witness :
    (Vertices.add ⟨1, [⟨⟨0, 0, 0⟩⟩]⟩ ⟨⟨1, 0, 0⟩⟩).isSome = true :=
  (vertices_add_min_distance_spec ⟨1, [⟨⟨0, 0, 0⟩⟩]⟩ ⟨⟨1, 0, 0⟩⟩).2.2
    (by
      intro existing hmem
      simp only [List.mem_singleton] at hmem
      subst hmem
      norm_num [Point3.magnitudeSq])

/-- An edge of the older shape kernel. Its content is irrelevant to the
ownership check of `Cycles::add`, which compares storage identity. -/
structure Edge where
  data : Unit
deriving DecidableEq, Repr

/-- A cycle of the older shape kernel: a list of handles to edges. -/
structure Cycle where
  edges : List (Handle Edge)
deriving DecidableEq, Repr

/-- The cycle store of a shape (`Cycles` in `kernel/shape/cycles.rs`): the
edge storages owned by the same shape and the cycles stored so far. -/
structure CyclesStore where
  edges : List (Handle Edge)
  cycles : List Cycle
deriving DecidableEq, Repr

/-- `Cycles::add`: asserts that every edge of the cycle is part of the shape's
edge store (by storage identity), panicking (modelled as `none`, state
unchanged) otherwise; on success pushes the cycle and returns a handle. -/
def Cycles.add (s : CyclesStore) (c : Cycle) :
    Option (Handle Cycle) × CyclesStore :=
  if c.edges.all (fun e => s.edges.any (fun stored => stored.id == e.id)) then
    (some ⟨s.cycles.length, c⟩, { s with cycles := s.cycles ++ [c] })
  else
    (none, s)

/-- C9: adding a cycle panics iff at least one of its edges is not contained
in the shape's edge store; when it panics the stored cycles (indeed the whole
store) are unchanged; and when every edge is contained, the cycle is appended
and a handle to it is returned. -/
theorem cycles_add_ownership_spec (s : CyclesStore) (c : Cycle) :
    ((Cycles.add s c).1 = none ↔
        ∃ e ∈ c.edges, ∀ stored ∈ s.edges, stored.id ≠ e.id) ∧
      ((Cycles.add s c).1 = none → (Cycles.add s c).2 = s) ∧
      (∀ h, (Cycles.add s c).1 = some h →
        (Cycles.add s c).2.cycles = s.cycles ++ [c] ∧
          (Cycles.add s c).2.edges = s.edges ∧
          h.val = c ∧ h.id = s.cycles.length) := by
  unfold Cycles.add
  split
  · next hall =>
    simp only [List.all_eq_true] at hall
    refine ⟨?_, ?_, ?_⟩
    · simp only [reduceCtorEq, false_iff]
      rintro ⟨e, hmem, hnone⟩
      have := hall e hmem
      simp only [List.any_eq_true, beq_iff_eq] at this
      obtain ⟨stored, hst, hid⟩ := this
      exact hnone stored hst hid
    · intro hcontra
      exact absurd hcontra (by simp)
    · intro h hsome
      simp only [Option.some.injEq] at hsome
      subst hsome
      simp
  · next hall =>
    simp only [List.all_eq_true, not_forall] at hall
    refine ⟨?_, fun _ => rfl, ?_⟩
    · simp only [true_iff]
      obtain ⟨e, hmem, hnot⟩ := hall
      refine ⟨e, hmem, fun stored hst hid => hnot ?_⟩
      simp only [List.any_eq_true, beq_iff_eq]
      exact ⟨stored, hst, hid⟩
    · intro h hsome
      exact absurd hsome (by simp)

/-- Witness for C9: adding a cycle whose single edge is owned by the shape
succeeds and appends the cycle. -/
theorem cycles_add_ownership_spec_witness :
    (Cycles.add ⟨[⟨0, ⟨()⟩⟩], []⟩ ⟨[⟨0, ⟨()⟩⟩]⟩).2.cycles =
        [] ++ [⟨[⟨0, ⟨()⟩⟩]⟩] :=
  ((cycles_add_ownership_spec ⟨[⟨0, ⟨()⟩⟩], []⟩ ⟨[⟨0, ⟨()⟩⟩]⟩).2.2
    ⟨0, ⟨[⟨0, ⟨()⟩⟩]⟩⟩ (by decide)).1

end OldKernel

namespace FjApprox

open FjKernel

/-- Modelled from the spec: the per-call approximation cache, "keyed by curve
(or sub-object) identity", mapping a curve handle's identity to the point
sequence already computed for it (`algorithms/approx/curve.rs` is not among
the analysed sources; `algorithms/approx/sketch.rs` delegates to it through
the face approximation). -/
structure CurveCache where
  entries : List (Nat × List Point2)
deriving DecidableEq, Repr

/-- Modelled from the spec: the tolerance-bounded sampling of one curve.
Lines "require only their two endpoints"; for circles the point density is a
closed form of radius and tolerance, here instantiated with an exact rational
parametrization of the circle so that the sampling is a pure function of the
curve and the tolerance. -/
def approxCurve (path : SurfacePath) (tol : ℚ) : List Point2 :=
  match path with
  | SurfacePath.line origin direction => [origin, origin + direction]
  | SurfacePath.circle center a b =>
    let n : Nat := 3 + ((a.x * a.x + a.y * a.y) / tol).ceil.toNat
    (List.range n).map fun k =>
      let t : ℚ := (k : ℚ) / (n : ℚ)
      let d : ℚ := 1 + t * t
      center + Point2.smul ((1 - t * t) / d) a + Point2.smul (2 * t / d) b

/-- Modelled from the spec: `approx_with_cache` for one curve — "repeated
approximation of the same identity at the same tolerance returns the cached
result rather than recomputing". A cache hit returns the stored sequence
unchanged; a miss computes the sequence and stores it under the curve's
identity. -/
def approxWithCache (c : Handle Curve) (tol : ℚ) (cache : CurveCache) :
    List Point2 × CurveCache :=
  match List.lookup c.id cache.entries with
  | some points => (points, cache)
  | none =>
    let points := approxCurve c.val.path tol
    (points, ⟨(c.id, points) :: cache.entries⟩)

/-- C7: approximating the same curve handle twice at the same tolerance with
the same cache instance returns element-wise identical point sequences; the
second run is served from the cache (the sequence is stored under the curve's
identity after the first run, and the second run returns exactly that stored
sequence, leaving the cache unchanged). -/
theorem approxWithCache_deterministic (c : Handle Curve) (tol : ℚ)
    (cache : CurveCache) :
    (approxWithCache c tol cache).1 =
        (approxWithCache c tol (approxWithCache c tol cache).2).1 ∧
      List.lookup c.id (approxWithCache c tol cache).2.entries =
        some (approxWithCache c tol cache).1 ∧
      (approxWithCache c tol (approxWithCache c tol cache).2).2 =
        (approxWithCache c tol cache).2 := by
  unfold approxWithCache
  cases hlook : List.lookup c.id cache.entries with
  | some points => simp [hlook]
  | none => simp [hlook]

end FjApprox

namespace FjSweep

open FjKernel

/-- The state threaded through one sweep call: the next free identity of the
object store, and the sweep cache mapping a source global vertex's identity to
the global vertex it was swept to. Modelled from the spec: caches are "owned
by and scoped to a single top-level call tree", "reusing/caching swept
sub-results to preserve vertex identity across shared boundaries". -/
structure SweepState where
  next : Nat
  sweptVertices : List (Nat × Handle GlobalVertex)
deriving DecidableEq, Repr

/-- Modelled from the spec: inserting a value into the object store returns a
handle to it. The analysed sweep code distinguishes coincident values by
object identity (`id()`), so insertion allocates a fresh identity for each
inserted value (the spec leaves the dedup policy per object kind open). -/
def insert {T : Type} (v : T) (st : SweepState) : Handle T × SweepState :=
  (⟨st.next, v⟩, { st with next := st.next + 1 })

/-- The line through two points carrying given curve coordinates
(`Line::from_points_with_line_coords` of fj-math, not among the analysed
sources): the unique parametrized line `origin + t · direction` that passes
through point `p.2` at coordinate `p.1` and through `q.2` at `q.1`. -/
def lineFromPointsWithLineCoords (p q : ℚ × Point2) : SurfacePath :=
  let direction := Point2.smul (1 / (q.1 - p.1)) (q.2 - p.2)
  SurfacePath.line (p.2 - Point2.smul p.1 direction) direction

/-- Translating a global path by a vector. -/
def translateGlobalPath (g : GlobalPath) (path : Point3) : GlobalPath :=
  match g with
  | GlobalPath.line origin direction => GlobalPath.line (origin + path) direction
  | GlobalPath.circle center a b => GlobalPath.circle (center + path) a b

/-- Modelled from the spec: step 4 of the edge sweep translates the bottom
edge's global curve along the path, producing a new global curve. -/
def translateGlobalCurve (g : Handle GlobalCurve) (path : Point3)
    (st : SweepState) : Handle GlobalCurve × SweepState :=
  insert ⟨translateGlobalPath g.val.path path⟩ st

/-- Modelled from the spec: step 1 of the edge sweep, "sweep the half-edge's
curve to obtain the side surface": the surface spanned by the curve's global
form (as u) and the sweep path (as v). -/
def sweepCurve (c : Handle Curve) (path : Point3) (st : SweepState) :
    Handle Surface × SweepState :=
  insert ⟨c.val.globalForm.val.path, path⟩ st

/-- The bottom edge of the swept face (`bottom_edge` in
`algorithms/sweep/edge.rs`): a new half-edge on the side surface. Its curve
is the line through the boundary's curve-and-surface points
`(t, [t, 0])` carrying the original curve's global form; its boundary keeps
the original boundary points and pairs them with freshly created surface
vertices at `[t, 0]` that reference the original vertices' global forms; its
global form is the original edge's global form. -/
def bottomEdge (edge : HalfEdge) (surface : Handle Surface) (st : SweepState) :
    Handle HalfEdge × SweepState :=
  let t0 := edge.boundary.1.1
  let sv0 := edge.boundary.1.2
  let t1 := edge.boundary.2.1
  let sv1 := edge.boundary.2.2
  let (curve, st) := insert
    { surface := surface,
      path := lineFromPointsWithLineCoords (t0, ⟨t0, 0⟩) (t1, ⟨t1, 0⟩),
      globalForm := edge.curve.val.globalForm : Curve } st
  let (bv0, st) := insert
    { position := ⟨t0, 0⟩, surface := surface,
      globalForm := sv0.val.globalForm : SurfaceVertex } st
  let (bv1, st) := insert
    { position := ⟨t1, 0⟩, surface := surface,
      globalForm := sv1.val.globalForm : SurfaceVertex } st
  insert
    { curve := curve, boundary := ((t0, bv0), (t1, bv1)),
      globalForm := edge.globalForm : HalfEdge } st

/-- Modelled from the spec: sweeping a global vertex along the path, cached
under the source vertex's identity so that a shared vertex sweeps to the same
3D vertex instead of a near-duplicate. -/
def sweptGlobalVertex (g : Handle GlobalVertex) (path : Point3)
    (st : SweepState) : Handle GlobalVertex × SweepState :=
  match List.lookup g.id st.sweptVertices with
  | some gTop => (gTop, st)
  | none =>
    let (gTop, st') := insert ⟨g.val.position + path⟩ st
    (gTop, { st' with sweptVertices := (g.id, gTop) :: st'.sweptVertices })

/-- Modelled from the spec: step 3 of the edge sweep, sweeping one boundary
vertex of the bottom edge along the path into a side edge ("each a translated
point pair"). The side edge starts at the given surface vertex and runs up
the side surface to a fresh surface vertex at `[t, 1]` referencing the swept
global vertex; its curve is the vertical line `u = t` of the side surface
over a fresh global curve along the path. -/
def sweepVertex (t : ℚ) (sv : Handle SurfaceVertex) (surface : Handle Surface)
    (path : Point3) (st : SweepState) : Handle HalfEdge × SweepState :=
  let gBottom := sv.val.globalForm
  let (gTop, st) := sweptGlobalVertex gBottom path st
  let (gc, st) := insert
    (GlobalCurve.mk (GlobalPath.line gBottom.val.position path)) st
  let (curve, st) := insert
    { surface := surface, path := SurfacePath.line ⟨t, 0⟩ ⟨0, 1⟩,
      globalForm := gc : Curve } st
  let (tv, st) := insert
    { position := ⟨t, 1⟩, surface := surface, globalForm := gTop :
      SurfaceVertex } st
  let (ge, st) := insert (GlobalEdge.new gc (gBottom, gTop)) st
  insert
    { curve := curve, boundary := ((0, sv), (1, tv)), globalForm := ge :
      HalfEdge } st

/-- The top edge (`top_edge` in `algorithms/sweep/edge.rs`): its curve is the
line through the bottom boundary's points lifted to `[t, 1]`, over the
translated global curve; its boundary reuses the bottom boundary points and
connects the side edges' far surface vertices; its global form joins those
vertices' global forms on the translated curve. -/
def topEdge (bottom sideD sideB : Handle HalfEdge) (surface : Handle Surface)
    (path : Point3) (st : SweepState) : Handle HalfEdge × SweepState :=
  let tv0 := sideD.val.endVertex
  let tv1 := sideB.val.endVertex
  let t0 := bottom.val.boundary.1.1
  let t1 := bottom.val.boundary.2.1
  let (global, st) :=
    translateGlobalCurve bottom.val.curve.val.globalForm path st
  let (curve, st) := insert
    { surface := surface,
      path := lineFromPointsWithLineCoords (t0, ⟨t0, 1⟩) (t1, ⟨t1, 1⟩),
      globalForm := global : Curve } st
  let (ge, st) := insert
    (GlobalEdge.new global (tv0.val.globalForm, tv1.val.globalForm)) st
  insert
    { curve := curve, boundary := ((t0, tv0), (t1, tv1)), globalForm := ge :
      HalfEdge } st

/-- Modelled from the spec: reorienting a half-edge ("reorienting any edge
whose surface-vertex does not match its neighbor's") reverses it — same
curve and global form, boundary pairs swapped — inserting the result as a new
object. -/
def reverse (e : Handle HalfEdge) (st : SweepState) :
    Handle HalfEdge × SweepState :=
  insert
    { curve := e.val.curve, boundary := (e.val.boundary.2, e.val.boundary.1),
      globalForm := e.val.globalForm : HalfEdge } st

/-- One step of the reorientation pass of `algorithms/sweep/edge.rs`: if the
end surface vertex of the previous edge does not match the start surface
vertex of the current edge by surface-local identity
(`prev_last.id() != next_first.id()`), the current edge is reversed. -/
def reorientStep (prev cur : Handle HalfEdge) (st : SweepState) :
    Handle HalfEdge × SweepState :=
  if prev.val.endVertex.id ≠ cur.val.startVertex.id then reverse cur st
  else (cur, st)

/-- The reorientation pass over the cycle `[a, b, c, d]`: the source loop
runs `i = 0..4` with `j = (i + 1) % 4`, possibly reversing edge `j` at each
step, each comparison using the current (possibly already reoriented)
edges. -/
def reorient (a b c d : Handle HalfEdge) (st : SweepState) :
    (Handle HalfEdge × Handle HalfEdge × Handle HalfEdge × Handle HalfEdge) ×
      SweepState :=
  let (b, st) := reorientStep a b st
  let (c, st) := reorientStep b c st
  let (d, st) := reorientStep c d st
  let (a, st) := reorientStep d a st
  ((a, b, c, d), st)

/-- `Sweep::sweep_with_cache` for `(Handle<HalfEdge>, Color)`
(`algorithms/sweep/edge.rs`): sweep the curve into the side surface,
re-derive the bottom edge, sweep its two boundary vertices into the side
edges `[d, b]`, build the top edge `c`, reorient and assemble the cycle
`[a, b, c, d]`, and build the face from that cycle carrying the color. -/
def sweepHalfEdge (edge : HalfEdge) (color : Nat) (path : Point3)
    (st : SweepState) : Handle Face × SweepState :=
  let (surface, st) := sweepCurve edge.curve path st
  let (bottom, st) := bottomEdge edge surface st
  let (sideD, st) :=
    sweepVertex bottom.val.boundary.1.1 bottom.val.boundary.1.2 surface path st
  let (sideB, st) :=
    sweepVertex bottom.val.boundary.2.1 bottom.val.boundary.2.2 surface path st
  let (top, st) := topEdge bottom sideD sideB surface path st
  let (edges, st) := reorient bottom sideB top sideD st
  let (cycle, st) :=
    insert ⟨[edges.1, edges.2.1, edges.2.2.1, edges.2.2.2]⟩ st
  insert { exterior := cycle, color := color : Face } st

/-- The `Cycle` invariant: for every consecutive pair of half-edges,
including the wrap-around pair from the last edge back to the first, the end
surface vertex of one is, by identity, the start surface vertex of the
next. -/
def cycleInvariant (c : Cycle) : Prop :=
  ∀ i : Fin c.halfEdges.length,
    ((c.halfEdges.get i).val.endVertex).id =
      ((c.halfEdges.get
        ⟨(i.1 + 1) % c.halfEdges.length,
          Nat.mod_lt _ (Nat.lt_of_le_of_lt (Nat.zero_le i.1) i.2)⟩).val.startVertex).id

end FjSweep

namespace FjSweep

open FjKernel

/-- C6: the re-derived bottom edge preserves 3D identity — its global form is
the swept half-edge's global form, its curve references the same global curve
as the original edge's curve, and each of its two freshly created boundary
surface vertices (fresh: their identities are new allocations of the store)
references the same global vertex as the corresponding boundary vertex of the
original edge. -/
theorem bottomEdge_preserves_3d_identity (edge : HalfEdge)
    (surface : Handle Surface) (st : SweepState) :
    (bottomEdge edge surface st).1.val.globalForm = edge.globalForm ∧
      (bottomEdge edge surface st).1.val.curve.val.globalForm =
        edge.curve.val.globalForm ∧
      (bottomEdge edge surface st).1.val.startVertex.val.globalForm =
        edge.startVertex.val.globalForm ∧
      (bottomEdge edge surface st).1.val.endVertex.val.globalForm =
        edge.endVertex.val.globalForm ∧
      st.next ≤ (bottomEdge edge surface st).1.val.startVertex.id ∧
      st.next ≤ (bottomEdge edge surface st).1.val.endVertex.id := by
  refine ⟨rfl, rfl, rfl, rfl, ?_, ?_⟩ <;>
    (simp [bottomEdge, insert, HalfEdge.startVertex, HalfEdge.endVertex];
      try omega)

end FjSweep

namespace FjSweep

open FjKernel

/-- The xy plane preset: u along the global x axis, v along the y axis. -/
def xyPlane : Surface :=
  { u := GlobalPath.line ⟨0, 0, 0⟩ ⟨1, 0, 0⟩, v := ⟨0, 1, 0⟩ }

/-- The xz plane preset: u along the global x axis, v along the z axis. -/
def xzPlane : Surface :=
  { u := GlobalPath.line ⟨0, 0, 0⟩ ⟨1, 0, 0⟩, v := ⟨0, 0, 1⟩ }

/-- The straight half-edge from `(0, 0)` to `(1, 0)` on the xy plane: curve
coordinates 0 and 1, surface vertices at `(0, 0)` and `(1, 0)`, global
vertices at `(0, 0, 0)` and `(1, 0, 0)`, on the line along the global x
axis. Handles carry the identities 0–7 of a store holding these objects. -/
def unitEdgeXY : HalfEdge :=
  { curve := ⟨0,
      { surface := ⟨1, xyPlane⟩,
        path := SurfacePath.line ⟨0, 0⟩ ⟨1, 0⟩,
        globalForm := ⟨2, ⟨GlobalPath.line ⟨0, 0, 0⟩ ⟨1, 0, 0⟩⟩⟩ }⟩,
    boundary :=
      ((0, ⟨3, { position := ⟨0, 0⟩, surface := ⟨1, xyPlane⟩,
                 globalForm := ⟨4, ⟨⟨0, 0, 0⟩⟩⟩ }⟩),
       (1, ⟨5, { position := ⟨1, 0⟩, surface := ⟨1, xyPlane⟩,
                 globalForm := ⟨6, ⟨⟨1, 0, 0⟩⟩⟩ }⟩)),
    globalForm := ⟨7, GlobalEdge.new ⟨2, ⟨GlobalPath.line ⟨0, 0, 0⟩ ⟨1, 0, 0⟩⟩⟩
      (⟨4, ⟨⟨0, 0, 0⟩⟩⟩, ⟨6, ⟨⟨1, 0, 0⟩⟩⟩)⟩ }

/-- The face obtained by sweeping `unitEdgeXY` along `(0, 0, 1)` with an
empty sweep cache. -/
def sweptUnitFace : Handle Face :=
  (sweepHalfEdge unitEdgeXY 0 ⟨0, 0, 1⟩ ⟨8, []⟩).1

/-- Sweeping a global vertex on a cache miss: a fresh swept vertex is
created, registered in the cache. -/
theorem sweptGlobalVertex_none (g : Handle GlobalVertex) (path : Point3)
    (st : SweepState) (h : List.lookup g.id st.sweptVertices = none) :
    sweptGlobalVertex g path st =
      (⟨st.next, ⟨g.val.position + path⟩⟩,
        ⟨st.next + 1,
          (g.id, ⟨st.next, ⟨g.val.position + path⟩⟩) :: st.sweptVertices⟩) := by
  unfold sweptGlobalVertex insert
  rw [h]

/-- Sweeping a global vertex on a cache hit: the cached swept vertex is
returned and the state is unchanged. -/
theorem sweptGlobalVertex_some (g : Handle GlobalVertex) (path : Point3)
    (st : SweepState) (gTop : Handle GlobalVertex)
    (h : List.lookup g.id st.sweptVertices = some gTop) :
    sweptGlobalVertex g path st = (gTop, st) := by
  unfold sweptGlobalVertex
  rw [h]

/-- The side surface produced by the unit sweep: the xz plane. -/
def surface8 : Handle Surface := ⟨8, xzPlane⟩

/-- The original edge's global vertex at `(0, 0, 0)`. -/
def gv4 : Handle GlobalVertex := ⟨4, ⟨⟨0, 0, 0⟩⟩⟩

/-- The original edge's global vertex at `(1, 0, 0)`. -/
def gv6 : Handle GlobalVertex := ⟨6, ⟨⟨1, 0, 0⟩⟩⟩

/-- The swept global vertex at `(0, 0, 1)`. -/
def gv13 : Handle GlobalVertex := ⟨13, ⟨⟨0, 0, 1⟩⟩⟩

/-- The swept global vertex at `(1, 0, 1)`. -/
def gv19 : Handle GlobalVertex := ⟨19, ⟨⟨1, 0, 1⟩⟩⟩

/-- The original edge's global curve along the x axis. -/
def gc2 : Handle GlobalCurve := ⟨2, ⟨GlobalPath.line ⟨0, 0, 0⟩ ⟨1, 0, 0⟩⟩⟩

/-- The global curve of the first side edge. -/
def gc14 : Handle GlobalCurve := ⟨14, ⟨GlobalPath.line ⟨0, 0, 0⟩ ⟨0, 0, 1⟩⟩⟩

/-- The global curve of the second side edge. -/
def gc20 : Handle GlobalCurve := ⟨20, ⟨GlobalPath.line ⟨1, 0, 0⟩ ⟨0, 0, 1⟩⟩⟩

/-- The translated global curve of the top edge. -/
def gc25 : Handle GlobalCurve := ⟨25, ⟨GlobalPath.line ⟨0, 0, 1⟩ ⟨1, 0, 0⟩⟩⟩

/-- The bottom edge's start surface vertex on the xz plane. -/
def bv10 : Handle SurfaceVertex := ⟨10, ⟨⟨0, 0⟩, surface8, gv4⟩⟩

/-- The bottom edge's end surface vertex on the xz plane. -/
def bv11 : Handle SurfaceVertex := ⟨11, ⟨⟨1, 0⟩, surface8, gv6⟩⟩

/-- The far surface vertex of the first side edge. -/
def tv16 : Handle SurfaceVertex := ⟨16, ⟨⟨0, 1⟩, surface8, gv13⟩⟩

/-- The far surface vertex of the second side edge. -/
def tv22 : Handle SurfaceVertex := ⟨22, ⟨⟨1, 1⟩, surface8, gv19⟩⟩

/-- The bottom edge of the unit sweep. -/
def bottom12 : Handle HalfEdge :=
  ⟨12, ⟨⟨9, ⟨surface8, SurfacePath.line ⟨0, 0⟩ ⟨1, 0⟩, gc2⟩⟩,
    ((0, bv10), (1, bv11)), ⟨7, ⟨gc2, ⟨(gv4, gv6)⟩⟩⟩⟩⟩

/-- The first side edge (swept from the bottom start vertex). -/
def sideD18 : Handle HalfEdge :=
  ⟨18, ⟨⟨15, ⟨surface8, SurfacePath.line ⟨0, 0⟩ ⟨0, 1⟩, gc14⟩⟩,
    ((0, bv10), (1, tv16)), ⟨17, ⟨gc14, ⟨(gv4, gv13)⟩⟩⟩⟩⟩

/-- The second side edge (swept from the bottom end vertex). -/
def sideB24 : Handle HalfEdge :=
  ⟨24, ⟨⟨21, ⟨surface8, SurfacePath.line ⟨1, 0⟩ ⟨0, 1⟩, gc20⟩⟩,
    ((0, bv11), (1, tv22)), ⟨23, ⟨gc20, ⟨(gv6, gv19)⟩⟩⟩⟩⟩

/-- The top edge before reorientation. -/
def top28 : Handle HalfEdge :=
  ⟨28, ⟨⟨26, ⟨surface8, SurfacePath.line ⟨0, 1⟩ ⟨1, 0⟩, gc25⟩⟩,
    ((0, tv16), (1, tv22)), ⟨27, ⟨gc25, ⟨(gv13, gv19)⟩⟩⟩⟩⟩

/-- The top edge after reorientation (reversed). -/
def top29 : Handle HalfEdge :=
  ⟨29, ⟨⟨26, ⟨surface8, SurfacePath.line ⟨0, 1⟩ ⟨1, 0⟩, gc25⟩⟩,
    ((1, tv22), (0, tv16)), ⟨27, ⟨gc25, ⟨(gv13, gv19)⟩⟩⟩⟩⟩

/-- The first side edge after reorientation (reversed). -/
def sideD30 : Handle HalfEdge :=
  ⟨30, ⟨⟨15, ⟨surface8, SurfacePath.line ⟨0, 0⟩ ⟨0, 1⟩, gc14⟩⟩,
    ((1, tv16), (0, bv10)), ⟨17, ⟨gc14, ⟨(gv4, gv13)⟩⟩⟩⟩⟩

/-- C5: sweeping the straight half-edge from `(0,0)` to `(1,0)` on the xy
plane along `(0,0,1)` yields a face whose exterior cycle has exactly 4
half-edges, all on the xz plane; whose bottom edge coincides with the
original edge reinterpreted on the xz plane (same curve path, same boundary
points, same surface-vertex positions, same global form); and whose side and
top edges run through the global vertices at exactly `(0,0,0)`, `(1,0,0)`,
`(1,0,1)`, `(0,0,1)`. -/
theorem sweep_unit_edge_literal_coordinates :
    sweptUnitFace.val.exterior.val.halfEdges.length = 4 ∧
      (sweptUnitFace.val.exterior.val.halfEdges.map fun h =>
          h.val.curve.val.surface.val) = List.replicate 4 xzPlane ∧
      (sweptUnitFace.val.exterior.val.halfEdges.map fun h =>
          (h.val.startVertex.val.globalForm.val.position,
            h.val.endVertex.val.globalForm.val.position)) =
        [(⟨0, 0, 0⟩, ⟨1, 0, 0⟩), (⟨1, 0, 0⟩, ⟨1, 0, 1⟩),
          (⟨1, 0, 1⟩, ⟨0, 0, 1⟩), (⟨0, 0, 1⟩, ⟨0, 0, 0⟩)] ∧
      (sweptUnitFace.val.exterior.val.halfEdges.head?.map fun h =>
          (h.val.curve.val.path, h.val.boundaryPoints,
            h.val.startVertex.val.position, h.val.endVertex.val.position,
            h.val.globalForm)) =
        some (unitEdgeXY.curve.val.path, unitEdgeXY.boundaryPoints,
          unitEdgeXY.startVertex.val.position,
          unitEdgeXY.endVertex.val.position, unitEdgeXY.globalForm) := by
  have h1 : sweepCurve unitEdgeXY.curve ⟨0, 0, 1⟩ ⟨8, []⟩ =
      (surface8, ⟨9, []⟩) := by
    norm_num [sweepCurve, insert, unitEdgeXY, surface8, xzPlane, xyPlane]
  have h2 : bottomEdge unitEdgeXY surface8 ⟨9, []⟩ = (bottom12, ⟨13, []⟩) := by
    norm_num [bottomEdge, insert, unitEdgeXY, bottom12, surface8, bv10, bv11,
      gv4, gv6, gc2, lineFromPointsWithLineCoords, Point2.smul,
      GlobalEdge.new, VerticesInNormalizedOrder.new, Handle.lt, xyPlane,
      xzPlane]
  have h3 : sweepVertex bottom12.val.boundary.1.1 bottom12.val.boundary.1.2
      surface8 ⟨0, 0, 1⟩ ⟨13, []⟩ = (sideD18, ⟨19, [(4, gv13)]⟩) := by
    norm_num [sweepVertex, sweptGlobalVertex, insert, List.lookup, bottom12,
      bv10, bv11, gv4, gv13, sideD18, gc2, gc14, tv16, surface8,
      GlobalEdge.new, VerticesInNormalizedOrder.new, Handle.lt, xzPlane]
  have h4 : sweepVertex bottom12.val.boundary.2.1 bottom12.val.boundary.2.2
      surface8 ⟨0, 0, 1⟩ ⟨19, [(4, gv13)]⟩ =
      (sideB24, ⟨25, [(6, gv19), (4, gv13)]⟩) := by
    unfold sweepVertex
    dsimp only
    rw [sweptGlobalVertex_none _ _ _
      (by norm_num [bottom12, bv11, gv6, gv13])]
    norm_num [insert, bottom12, bv10, bv11, gv6, gv13, gv19, sideB24, gc2,
      gc20, tv22, surface8, GlobalEdge.new, VerticesInNormalizedOrder.new,
      Handle.lt, xzPlane]
  have h5 : topEdge bottom12 sideD18 sideB24 surface8 ⟨0, 0, 1⟩
      ⟨25, [(6, gv19), (4, gv13)]⟩ =
      (top28, ⟨29, [(6, gv19), (4, gv13)]⟩) := by
    norm_num [topEdge, translateGlobalCurve, translateGlobalPath, insert,
      lineFromPointsWithLineCoords, Point2.smul, bottom12, sideD18, sideB24,
      top28, gc2, gc14, gc20, gc25, tv16, tv22, gv4, gv6, gv13, gv19, bv10,
      bv11, surface8, GlobalEdge.new, VerticesInNormalizedOrder.new,
      Handle.lt, HalfEdge.endVertex, xzPlane]
  have h6 : reorient bottom12 sideB24 top28 sideD18
      ⟨29, [(6, gv19), (4, gv13)]⟩ =
      ((bottom12, sideB24, top29, sideD30), ⟨31, [(6, gv19), (4, gv13)]⟩) := by
    norm_num [reorient, reorientStep, reverse, insert, HalfEdge.endVertex,
      HalfEdge.startVertex, bottom12, sideB24, top28, top29, sideD18,
      sideD30, bv10, bv11, tv16, tv22]
  have hface : sweptUnitFace =
      ⟨32, { exterior := ⟨31, ⟨[bottom12, sideB24, top29, sideD30]⟩⟩,
             color := 0 }⟩ := by
    unfold sweptUnitFace sweepHalfEdge
    rw [h1]
    dsimp only
    rw [h2]
    dsimp only
    rw [h3]
    dsimp only
    rw [h4]
    dsimp only
    rw [h5]
    dsimp only
    rw [h6]
    dsimp only [insert]
  rw [hface]
  norm_num [unitEdgeXY, bottom12, sideB24, top29, sideD30, bv10, bv11, tv16,
    tv22, gv4, gv6, gv13, gv19, gc2, gc14, gc20, gc25, surface8,
    HalfEdge.startVertex, HalfEdge.endVertex, HalfEdge.boundaryPoints,
    GlobalEdge.new, VerticesInNormalizedOrder.new, Handle.lt, xyPlane,
    xzPlane, List.replicate]

end FjSweep

namespace FjSweep

open FjKernel

/-- The shape of a swept side edge, for any cache contents: it starts at the
given surface vertex, ends at a fresh surface vertex at `[t, 1]`, and its
freshly allocated identities sit at consecutive offsets `m, ..., m + 4` for
some `m` at or beyond the store's next identity. -/
theorem sweepVertex_shape (t : ℚ) (sv : Handle SurfaceVertex)
    (surface : Handle Surface) (path : Point3) (st : SweepState) :
    ∃ (m : Nat) (gTop : Handle GlobalVertex)
      (cache : List (Nat × Handle GlobalVertex)),
      st.next ≤ m ∧
      sweepVertex t sv surface path st =
        (⟨m + 4,
          { curve := ⟨m + 1,
              { surface := surface,
                path := SurfacePath.line ⟨t, 0⟩ ⟨0, 1⟩,
                globalForm :=
                  ⟨m, ⟨GlobalPath.line sv.val.globalForm.val.position path⟩⟩ }⟩,
            boundary := ((0, sv),
              (1, ⟨m + 2, { position := ⟨t, 1⟩, surface := surface,
                            globalForm := gTop }⟩)),
            globalForm := ⟨m + 3,
              GlobalEdge.new
                ⟨m, ⟨GlobalPath.line sv.val.globalForm.val.position path⟩⟩
                (sv.val.globalForm, gTop)⟩ }⟩,
          ⟨m + 5, cache⟩) := by
  cases h : List.lookup sv.val.globalForm.id st.sweptVertices with
  | none =>
    refine ⟨st.next + 1,
      ⟨st.next, ⟨sv.val.globalForm.val.position + path⟩⟩,
      (sv.val.globalForm.id,
        ⟨st.next, ⟨sv.val.globalForm.val.position + path⟩⟩) ::
          st.sweptVertices,
      by omega, ?_⟩
    unfold sweepVertex
    dsimp only
    rw [sweptGlobalVertex_none _ _ _ h]
    dsimp only [insert]
  | some gTop =>
    refine ⟨st.next, gTop, st.sweptVertices, Nat.le_refl _, ?_⟩
    unfold sweepVertex
    dsimp only
    rw [sweptGlobalVertex_some _ _ _ _ h]
    dsimp only [insert]

/-- The reorientation step is the identity when the neighboring surface
vertices already match by identity. -/
theorem reorientStep_matched (prev cur : Handle HalfEdge) (st : SweepState)
    (h : prev.val.endVertex.id = cur.val.startVertex.id) :
    reorientStep prev cur st = (cur, st) := by
  unfold reorientStep
  rw [if_neg (not_not_intro h)]

/-- The reorientation step reverses the current edge when the neighboring
surface vertices do not match by identity. -/
theorem reorientStep_mismatched (prev cur : Handle HalfEdge) (st : SweepState)
    (h : prev.val.endVertex.id ≠ cur.val.startVertex.id) :
    reorientStep prev cur st = reverse cur st := by
  unfold reorientStep
  rw [if_pos h]

end FjSweep

namespace FjSweep

open FjKernel

/-- Evaluating the reorientation pass on the sweep's `[a, b, c, d]` pattern:
when `a`'s end matches `b`'s start, `b`'s end does not match `c`'s start,
`c`'s start does not match `d`'s start, and `d`'s start matches `a`'s start,
the pass keeps `a` and `b` and reverses `c` and `d`. -/
theorem reorient_pattern (a b c d : Handle HalfEdge) (st : SweepState)
    (h1 : a.val.boundary.2.2.id = b.val.boundary.1.2.id)
    (h2 : b.val.boundary.2.2.id ≠ c.val.boundary.1.2.id)
    (h3 : c.val.boundary.1.2.id ≠ d.val.boundary.1.2.id)
    (h4 : d.val.boundary.1.2.id = a.val.boundary.1.2.id) :
    reorient a b c d st =
      ((a, b,
        ⟨st.next, ⟨c.val.curve, (c.val.boundary.2, c.val.boundary.1),
          c.val.globalForm⟩⟩,
        ⟨st.next + 1, ⟨d.val.curve, (d.val.boundary.2, d.val.boundary.1),
          d.val.globalForm⟩⟩),
       ⟨st.next + 2, st.sweptVertices⟩) := by
  unfold reorient
  rw [reorientStep_matched a b st h1]
  try dsimp only
  rw [reorientStep_mismatched b c st h2]
  simp only [reverse, insert]
  try dsimp only
  rw [reorientStep_mismatched
    ⟨st.next, ⟨c.val.curve, (c.val.boundary.2, c.val.boundary.1),
      c.val.globalForm⟩⟩ d ⟨st.next + 1, st.sweptVertices⟩ h3]
  simp only [reverse, insert]
  try dsimp only
  rw [reorientStep_matched
    ⟨st.next + 1, ⟨d.val.curve, (d.val.boundary.2, d.val.boundary.1),
      d.val.globalForm⟩⟩ a ⟨st.next + 2, st.sweptVertices⟩ h4]

end FjSweep

namespace FjSweep

open FjKernel

/-- The cycle invariant for a four-edge cycle follows from the four
consecutive matches, including the wrap-around one. -/
theorem cycleInvariant_four (e0 e1 e2 e3 : Handle HalfEdge)
    (h01 : e0.val.endVertex.id = e1.val.startVertex.id)
    (h12 : e1.val.endVertex.id = e2.val.startVertex.id)
    (h23 : e2.val.endVertex.id = e3.val.startVertex.id)
    (h30 : e3.val.endVertex.id = e0.val.startVertex.id) :
    cycleInvariant ⟨[e0, e1, e2, e3]⟩ := by
  intro i
  fin_cases i
  · simpa using h01
  · simpa using h12
  · simpa using h23
  · simpa using h30

/-- C3: for every half-edge swept along a path (any store state and any sweep
cache contents), the four-edge cycle assembled by the sweep — bottom, two
sides, top, after the reorientation pass — satisfies the `Cycle` invariant:
every consecutive pair of half-edges, including the wrap-around pair,
connects end surface vertex to start surface vertex by identity. -/
theorem sweep_halfEdge_cycle_invariant (edge : HalfEdge) (color : Nat)
    (path : Point3) (st : SweepState) :
    cycleInvariant (sweepHalfEdge edge color path st).1.val.exterior.val := by
  obtain ⟨curveH, ⟨⟨t0, sv0⟩, ⟨t1, sv1⟩⟩, gf⟩ := edge
  unfold sweepHalfEdge
  simp only [sweepCurve, bottomEdge, insert]
  try dsimp only
  obtain ⟨m1, gT1, c1, hm1, he1⟩ :=
    sweepVertex_shape t0
      ⟨st.next + 2, ⟨⟨t0, 0⟩,
        ⟨st.next, ⟨curveH.val.globalForm.val.path, path⟩⟩,
        sv0.val.globalForm⟩⟩
      ⟨st.next, ⟨curveH.val.globalForm.val.path, path⟩⟩ path
      ⟨st.next + 5, st.sweptVertices⟩
  rw [he1]
  try dsimp only
  obtain ⟨m2, gT2, c2, hm2, he2⟩ :=
    sweepVertex_shape t1
      ⟨st.next + 3, ⟨⟨t1, 0⟩,
        ⟨st.next, ⟨curveH.val.globalForm.val.path, path⟩⟩,
        sv1.val.globalForm⟩⟩
      ⟨st.next, ⟨curveH.val.globalForm.val.path, path⟩⟩ path
      ⟨m1 + 5, c1⟩
  rw [he2]
  try dsimp only
  simp only [topEdge, translateGlobalCurve, insert]
  try dsimp only
  dsimp only at hm1 hm2
  rw [reorient_pattern]
  · apply cycleInvariant_four
    all_goals dsimp only [HalfEdge.endVertex, HalfEdge.startVertex]
  · rfl
  · dsimp only [HalfEdge.endVertex, HalfEdge.startVertex]
    omega
  · dsimp only [HalfEdge.endVertex, HalfEdge.startVertex]
    omega
  · rfl

end FjSweep
